import Mathlib

/-!
Verification development for the Ocean Air ticket back-office tool.

The JavaScript sources are shallowly embedded: each definition below mirrors a
function of the repository (file and function named in its doc comment).
Conventions of the embedding:
* JS strings are `String`; character-level operations (trim, split, includes,
  the regular expressions used by the code) are modelled operationally on
  `List Char`.
* JS numbers holding money are modelled as `Int`: the sheet data is integer
  MMK amounts and IEEE doubles are exact on integers in that range.
* A JS `Date` is modelled by its observable calendar fields plus the
  milliseconds elapsed inside the day (`JSDate`); `getTime()` is `JSDate.time`.
  The runtime timezone is fixed at UTC, so `new Date(y, m, d)` and
  `Date.UTC(y, m, d)` denote the same instant.
* The host's generic date parser (`new Date(string)`) is external to the
  repository, so it is a parameter `fb : String → Option JSDate` of every
  definition that reaches the code's generic-parse fallback (`none` models an
  Invalid Date).
-/

namespace Ocean

/-- Model of the characters matched by `\s` in the JS regexes and by
`String.prototype.trim` (the ASCII subset actually reachable from sheet data). -/
def jsWhitespace (c : Char) : Bool :=
  c = ' ' ∨ c = '\t' ∨ c = '\n' ∨ c = '\r' ∨ c = '\x0b' ∨ c = '\x0c'

/-- Model of `String.prototype.trim`: drop whitespace from both ends. -/
def jsTrim (cs : List Char) : List Char :=
  ((cs.dropWhile jsWhitespace).reverse.dropWhile jsWhitespace).reverse

/-- String-level `trim`. -/
def jsTrimStr (s : String) : String := String.mk (jsTrim s.toList)

/-- Decimal digit test, as in the `\d` character class. -/
def isDigitChar (c : Char) : Bool := '0' ≤ c ∧ c ≤ '9'

/-- Numeric value of a decimal digit character. -/
def digitVal (c : Char) : Nat := c.toNat - 48

/-- Big-endian value of a run of digit characters. -/
def digitsVal (ds : List Char) : Nat := ds.foldl (fun a c => 10 * a + digitVal c) 0

/-- Model of `parseInt(s, 10)`: skip leading whitespace, read an optional
sign and then the maximal digit prefix; `none` models `NaN`. -/
def jsParseInt (cs : List Char) : Option Int :=
  let cs1 := cs.dropWhile jsWhitespace
  let (neg, cs2) : Bool × List Char :=
    match cs1 with
    | '-' :: t => (true, t)
    | '+' :: t => (false, t)
    | t => (false, t)
  let ds := cs2.takeWhile isDigitChar
  if ds.isEmpty then none
  else some (if neg then -(digitsVal ds : Int) else (digitsVal ds : Int))

/-- ASCII lower-casing of a whole string, as `toLowerCase` behaves on the
ASCII sheet data. -/
def lowerStr (s : String) : String := String.mk (s.toList.map Char.toLower)

/-- ASCII upper-casing, as `toUpperCase` behaves on the ASCII sheet data. -/
def upperStr (s : String) : String := String.mk (s.toList.map Char.toUpper)

/-- Scan combinator shared by the regex/`includes` models: does `p` accept a
match starting at some position of the list? JS regex search and
`String.prototype.includes` both scan start positions left to right. -/
def scanHolds (p : List Char → Bool) : List Char → Bool
  | [] => p []
  | c :: t => p (c :: t) || scanHolds p t

/-- Model of `haystack.includes(needle)` on JS strings. -/
def jsIncludes (haystack needle : String) : Bool :=
  scanHolds (fun cs => needle.toList.isPrefixOf cs) haystack.toList

/-- The characters on which `parseSheetDate` splits: `/[-\/]/`. -/
def isSepChar (c : Char) : Bool := c = '-' ∨ c = '/'

/-- Model of `String.prototype.split(/[-\/]/)`: cut at every separator,
keeping empty pieces, exactly as the JS split does. -/
def splitSep : List Char → List (List Char)
  | [] => [[]]
  | c :: t =>
    match splitSep t with
    | [] => [[]]
    | cur :: rest =>
      if isSepChar c then [] :: cur :: rest else (c :: cur) :: rest

/-- Calendar: leap-year rule used by the host `Date`. -/
def isLeapYear (y : Int) : Bool :=
  y % 4 = 0 ∧ (y % 100 ≠ 0 ∨ y % 400 = 0)

/-- Days in month `m` (0-based months, as `Date#getMonth` reports them). -/
def daysInMonth (y : Int) (m : Nat) : Nat :=
  match m with
  | 0 => 31
  | 1 => if isLeapYear y then 29 else 28
  | 2 => 31
  | 3 => 30
  | 4 => 31
  | 5 => 30
  | 6 => 31
  | 7 => 31
  | 8 => 30
  | 9 => 31
  | 10 => 30
  | _ => 31

/-- Days elapsed since 1970-01-01 for the civil date `(y, m, d)` with a
0-based month, the standard days-from-civil computation a `Date` performs. -/
def dayNumber (y : Int) (m : Nat) (d : Nat) : Int :=
  let m1 : Int := (m : Int) + 1
  let y1 : Int := if m1 ≤ 2 then y - 1 else y
  let era : Int := y1.fdiv 400
  let yoe : Int := y1 - era * 400
  let mp : Int := if m1 > 2 then m1 - 3 else m1 + 9
  let doy : Int := (153 * mp + 2).fdiv 5 + (d : Int) - 1
  let doe : Int := yoe * 365 + yoe.fdiv 4 - yoe.fdiv 100 + doy
  era * 146097 + doe - 719468

/-- Observable state of a JS `Date`: calendar fields (local = UTC in this
embedding) plus the milliseconds inside the day. -/
structure JSDate where
  year : Int
  month : Nat
  day : Nat
  msInDay : Nat
deriving Repr, DecidableEq

/-- Model of `getTime()`: epoch milliseconds of a `JSDate`. -/
def JSDate.time (d : JSDate) : Int :=
  dayNumber d.year d.month d.day * 86400000 + (d.msInDay : Int)

/-- The `new Date(0)` sentinel the code returns for unparseable dates. -/
def epochDate : JSDate := ⟨1970, 0, 1, 0⟩

/-- Model of `new Date(y, m, d)` for the validated ranges the code feeds it
(`0 ≤ m ≤ 11`, `1 ≤ d ≤ 31`): a day past the end of the month rolls into the
next month, which is the only normalization reachable from those ranges. -/
def mkDate (y : Int) (m : Nat) (d : Nat) : JSDate :=
  if d ≤ daysInMonth y m then ⟨y, m, d, 0⟩
  else if m = 11 then ⟨y + 1, 0, d - daysInMonth y m, 0⟩
  else ⟨y, m + 1, d - daysInMonth y m, 0⟩

/-- The month-abbreviation table of `parseSheetDate` (`monthMap`), keyed by
the already upper-cased month token. -/
def monthMap (cs : List Char) : Option Nat :=
  if cs = "JAN".toList then some 0
  else if cs = "FEB".toList then some 1
  else if cs = "MAR".toList then some 2
  else if cs = "APR".toList then some 3
  else if cs = "MAY".toList then some 4
  else if cs = "JUN".toList then some 5
  else if cs = "JUL".toList then some 6
  else if cs = "AUG".toList then some 7
  else if cs = "SEP".toList then some 8
  else if cs = "OCT".toList then some 9
  else if cs = "NOV".toList then some 10
  else if cs = "DEC".toList then some 11
  else none

/-- The structured branch of `parseSheetDate` (utils.js): split on `-`/`/`,
decide MM/DD/YYYY versus DD-Mon-YYYY by whether the middle part is numeric,
validate the ranges, build the date and check it reads back unchanged.
Returns `none` whenever the original falls through to the generic-parse
fallback. -/
def structParse (cs : List Char) : Option JSDate :=
  match splitSep cs with
  | [p0, p1, p2] =>
    let dmy : Option Int × Option Int × Option Int :=
      match jsParseInt p1 with
      | none => (jsParseInt p0, (monthMap (p1.map Char.toUpper)).map Int.ofNat, jsParseInt p2)
      | some _ => (jsParseInt p1, (jsParseInt p0).map (· - 1), jsParseInt p2)
    match dmy with
    | (some day, some month, some year) =>
      if year > 1900 ∧ day > 0 ∧ day ≤ 31 ∧ month ≥ 0 ∧ month < 12 then
        let d := mkDate year month.toNat day.toNat
        if d.year = year ∧ d.month = month.toNat ∧ d.day = day.toNat then some d
        else none
      else none
    | _ => none
  | _ => none

/-- utils.js `parseSheetDate`: empty input is the epoch sentinel, the trimmed
string goes through the structured parser, then the host's generic
`new Date(string)` fallback `fb`, and finally the epoch sentinel. -/
def parseSheetDate (fb : String → Option JSDate) (s : String) : JSDate :=
  if s.toList = [] then epochDate
  else
    let safe := jsTrim s.toList
    match structParse safe with
    | some d => d
    | none =>
      match fb (String.mk safe) with
      | some d => d
      | none => epochDate

/-- One attempt of the deadline-time regex
`/(\d+):(\d+)(:(\d+))?\s*(AM|PM)/i` anchored at the head of the list:
greedy digit runs, optional seconds group, `\s*`, then the AM/PM tag.
Returns `(hours digits, minutes digits, isPM)`. -/
def timeMatchAt (cs : List Char) : Option (Nat × Nat × Bool) :=
  let ds1 := cs.takeWhile isDigitChar
  let r1 := cs.dropWhile isDigitChar
  if ds1.isEmpty then none
  else
    match r1 with
    | ':' :: r2 =>
      let ds2 := r2.takeWhile isDigitChar
      let r3 := r2.dropWhile isDigitChar
      if ds2.isEmpty then none
      else
        let r4 :=
          match r3 with
          | ':' :: r3a =>
            if (r3a.takeWhile isDigitChar).isEmpty then r3
            else r3a.dropWhile isDigitChar
          | _ => r3
        let r5 := r4.dropWhile jsWhitespace
        match r5 with
        | a :: m :: _ =>
          if (a.toLower = 'a' ∨ a.toLower = 'p') ∧ m.toLower = 'm' then
            some (digitsVal ds1, digitsVal ds2, a.toLower = 'p')
          else none
        | _ => none
    | _ => none

/-- Unanchored search for the deadline-time regex, scanning start positions
left to right as the JS engine does. -/
def timeMatch : List Char → Option (Nat × Nat × Bool)
  | [] => timeMatchAt []
  | c :: t =>
    match timeMatchAt (c :: t) with
    | some r => some r
    | none => timeMatch t

/-- utils.js `parseDeadline`: `null` for empty strings, epoch-sentinel dates
and unmatched time strings, otherwise the epoch milliseconds of the date with
its hours/minutes replaced by the 12-hour-clock time (12 AM → 0, PM adds 12
below noon). `date.setHours(h, min, 0, 0)` is the linear-time computation
from the date's day number, which also carries any overflow exactly as the
host normalization does. -/
def parseDeadline (fb : String → Option JSDate) (dateStr timeStr : String) : Option Int :=
  if dateStr.toList = [] ∨ timeStr.toList = [] then none
  else
    let date := parseSheetDate fb dateStr
    if date.time = 0 then none
    else
      match timeMatch timeStr.toList with
      | none => none
      | some (h, minutes, isPM) =>
        let hours := if isPM ∧ h < 12 then h + 12 else if ¬isPM ∧ h = 12 then 0 else h
        some (dayNumber date.year date.month date.day * 86400000 +
          (hours : Int) * 3600000 + (minutes : Int) * 60000)

/-- A parsed ticket row (tickets.js `parseTicketData`): the 22 sheet columns
A:V plus the durable `rowIndex` identity. -/
structure Ticket where
  issued_date : String
  name : String
  id_no : String
  phone : String
  account_name : String
  account_type : String
  account_link : String
  departure : String
  destination : String
  departing_on : String
  airline : String
  base_fare : Int
  booking_reference : String
  net_amount : Int
  paid : Bool
  payment_method : String
  paid_date : String
  commission : Int
  remarks : String
  extra_fare : Int
  date_change : Int
  gender : String
  rowIndex : Nat
deriving Repr, DecidableEq

/-- A parsed settlement row (settlement.js `parseSettlementData`). -/
structure Settlement where
  settlement_date : String
  amount_paid : Int
  payment_method : String
  transaction_id : String
  status : String
  notes : String
  rowIndex : Nat
deriving Repr, DecidableEq

/-- A parsed booking row (booking view `parseBookingData`): the 13 sheet
columns A:M plus `rowIndex`. -/
structure Booking where
  name : String
  id_no : String
  phone : String
  account_name : String
  account_type : String
  account_link : String
  departure : String
  destination : String
  departing_on : String
  pnr : String
  remark : String
  enddate : String
  endtime : String
  rowIndex : Nat
deriving Repr, DecidableEq

/-- The revenue contribution of one ticket: `(net_amount || 0) + (date_change || 0)`. -/
def revTerm (t : Ticket) : Int := t.net_amount + t.date_change

/-- The `!t.remarks?.toLowerCase().includes('full refund')` filter used by
both balance computations. -/
def notFullRefund (t : Ticket) : Bool := !(jsIncludes (lowerStr t.remarks) "full refund")

/-- The cancelled/refunded test of `updateNotifications` (reports.js):
remarks contain, case-insensitively, "cancel" or "refund". -/
def remarksCancelled (t : Ticket) : Bool :=
  jsIncludes (lowerStr t.remarks) "cancel" || jsIncludes (lowerStr t.remarks) "refund"

/-- reports.js (ui part) `normalizePassengerName`: trim, `N/A` for empty,
then delete a trailing `(Fees)` (with surrounding whitespace, regex
`/\s*\(fees\)\s*$/i`) and trim again. Because the result is trimmed anyway,
deleting the regex match is deleting the suffix after right-trimming. -/
def normalizePassengerName (name : String) : String :=
  let raw := jsTrim name.toList
  if raw = [] then "N/A"
  else
    let r := raw.reverse.dropWhile jsWhitespace |>.reverse
    if "(fees)".toList.isSuffixOf (r.map Char.toLower) then
      String.mk (jsTrim (r.take (r.length - 6)))
    else String.mk raw

/-- Head-anchored attempt of the regex `/\(fees\)\s*$/i`: the literal
`(fees)` (case-insensitively), then only whitespace up to the end. -/
def feesEndAt (cs : List Char) : Bool :=
  "(fees)".toList.isPrefixOf (cs.map Char.toLower) &&
    ((cs.map Char.toLower).drop 6).all jsWhitespace

/-- reports.js (ui part) `isFeeEntryRow`: the name tests against
`/\(fees\)\s*$/i` (modelled as the left-to-right scan of `feesEndAt`) or the
remarks contain "fee entry". -/
def isFeeEntryRow (t : Ticket) : Bool :=
  scanHolds feesEndAt t.name.toList || jsIncludes (lowerStr t.remarks) "fee entry"

/-- manage.js `isFeeRow`: the lower-cased name *contains* `(fees)` anywhere,
or the remarks contain "fee entry". -/
def isFeeRow (t : Ticket) : Bool :=
  jsIncludes (lowerStr t.name) "(fees)" || jsIncludes (lowerStr t.remarks) "fee entry"

/-- One entry of the `unpaidGroups` object built by reports.js
`updateNotifications`. -/
structure UnpaidGroup where
  pnr : String
  passengers : List String
  totalDue : Int
deriving Repr, DecidableEq

/-- The grouping key: `(t.booking_reference || 'N/A').toUpperCase()`. -/
def unpaidKey (t : Ticket) : String :=
  if t.booking_reference = "" then "N/A" else upperStr t.booking_reference

/-- The amount a ticket adds to its group:
`(net_amount || 0) + (extra_fare || 0) + (date_change || 0)`. -/
def unpaidAmt (t : Ticket) : Int := t.net_amount + t.extra_fare + t.date_change

/-- The passenger-name push of `updateNotifications`: a non-empty name is
normalized and appended unless already present. -/
def pushName (t : Ticket) (ps : List String) : List String :=
  if t.name ≠ "" ∧ normalizePassengerName t.name ∉ ps then
    ps ++ [normalizePassengerName t.name]
  else ps

/-- Insert one eligible ticket into the insertion-ordered group list, the JS
object keyed by PNR: update the existing entry in place or append a fresh
one. -/
def addToGroups (t : Ticket) : List UnpaidGroup → List UnpaidGroup
  | [] => [⟨unpaidKey t, pushName t [], unpaidAmt t⟩]
  | g :: gs =>
    if g.pnr = unpaidKey t then
      { g with passengers := pushName t g.passengers, totalDue := g.totalDue + unpaidAmt t } :: gs
    else g :: addToGroups t gs

/-- The eligibility filter of `updateNotifications`: unpaid and not
cancelled/refunded. -/
def unpaidEligible (t : Ticket) : Bool := !t.paid && !remarksCancelled t

/-- reports.js `updateNotifications`, grouping phase: fold the ticket list
into the `unpaidGroups` object (its `Object.values`, in insertion order). -/
def unpaidGroups (tickets : List Ticket) : List UnpaidGroup :=
  tickets.foldl (fun gs t => if unpaidEligible t then addToGroups t gs else gs) []

/-- Date a ticket row was issued, as the balance code parses it. -/
def ticketDate (fb : String → Option JSDate) (t : Ticket) : JSDate :=
  parseSheetDate fb t.issued_date

/-- Date of a settlement row, as the balance code parses it. -/
def settlementDate (fb : String → Option JSDate) (s : Settlement) : JSDate :=
  parseSheetDate fb s.settlement_date

/-- `RESET_DATE = new Date(Date.UTC(2025, 10, 1))` as epoch milliseconds. -/
def resetTimeMs : Int := dayNumber 2025 10 1 * 86400000

/-- The year/month reached by `new Date(firstDayOfCurrentMonth.getTime() - 1)`:
one millisecond before the first of a month is the last day of the previous
calendar month, whose year/month this computes. -/
def prevMonthOf (y : Int) (m : Nat) : Int × Nat :=
  if m = 0 then (y - 1, 11) else (y, m - 1)

/-- reports.js `exportToPdf`, previous-balance section (the same computation
appears in settlement.js `updateSettlementDashboard` with the first of the
current month as the period start): compare the period start, re-read as a
UTC date, against the Nov 1 2025 reset instant; before it, carry over a
single month of revenue minus commission and settlements; from it on, carry
over the cumulative revenue minus commission and settlements of the window
from the reset instant up to the period start. -/
def previousEndOfMonthDue (fb : String → Option JSDate) (allTickets : List Ticket)
    (allSettlements : List Settlement) (startDate : JSDate) : Int :=
  let reportStart : Int := dayNumber startDate.year startDate.month startDate.day * 86400000
  if reportStart < resetTimeMs then
    let p := prevMonthOf startDate.year startDate.month
    let ticketsLastMonth := allTickets.filter (fun t =>
      (ticketDate fb t).month == p.2 && (ticketDate fb t).year == p.1 && notFullRefund t)
    let revenueLastMonth := (ticketsLastMonth.map revTerm).sum
    let commissionLastMonth := (ticketsLastMonth.map (·.commission)).sum
    let settlementsLastMonth := allSettlements.filter (fun s =>
      (settlementDate fb s).month == p.2 && (settlementDate fb s).year == p.1)
    let totalSettlementsLastMonth := (settlementsLastMonth.map (·.amount_paid)).sum
    revenueLastMonth - (commissionLastMonth + totalSettlementsLastMonth)
  else
    let ticketsBefore := allTickets.filter (fun t =>
      resetTimeMs ≤ (ticketDate fb t).time && (ticketDate fb t).time < startDate.time &&
        notFullRefund t)
    let revenueBefore := (ticketsBefore.map revTerm).sum
    let commissionBefore := (ticketsBefore.map (·.commission)).sum
    let settlementsBefore := allSettlements.filter (fun s =>
      resetTimeMs ≤ (settlementDate fb s).time && (settlementDate fb s).time < startDate.time)
    let totalSettlementsBefore := (settlementsBefore.map (·.amount_paid)).sum
    revenueBefore - (commissionBefore + totalSettlementsBefore)

/-- settlement.js `updateSettlementDashboard`, current-month ticket filter:
issued in the given month/year and remarks free of "full refund". -/
def ticketsThisMonth (fb : String → Option JSDate) (allTickets : List Ticket)
    (nowYear : Int) (nowMonth : Nat) : List Ticket :=
  allTickets.filter (fun t =>
    (ticketDate fb t).month == nowMonth && (ticketDate fb t).year == nowYear && notFullRefund t)

/-- settlement.js `updateSettlementDashboard`: `revenueThisMonth`. -/
def revenueThisMonth (fb : String → Option JSDate) (allTickets : List Ticket)
    (nowYear : Int) (nowMonth : Nat) : Int :=
  ((ticketsThisMonth fb allTickets nowYear nowMonth).map revTerm).sum

/-- reports.js `exportToPdf`, range mode: the tickets issued inside
`[startDate, endDate]` (the caller zeroes the start's and maxes the end's
time of day); no remarks filter is applied here. -/
def exportRangeTickets (fb : String → Option JSDate) (allTickets : List Ticket)
    (startDate endDate : JSDate) : List Ticket :=
  allTickets.filter (fun t =>
    startDate.time ≤ (ticketDate fb t).time && (ticketDate fb t).time ≤ endDate.time)

/-- reports.js `exportToPdf`: `totalNetAmount + totalDateChange` of the
range-mode export, the period revenue that seeds the grand total. -/
def exportRangeRevenue (fb : String → Option JSDate) (allTickets : List Ticket)
    (startDate endDate : JSDate) : Int :=
  ((exportRangeTickets fb allTickets startDate endDate).map revTerm).sum

/-- Booking activity test used by the sweep and the active list:
`!booking.remark || String(booking.remark).trim() === ''`. -/
def bookingHasNoAction (b : Booking) : Bool := jsTrim b.remark.toList = []

/-- Is a booking picked up by the expiry sweep: no action recorded and a
parseable deadline strictly in the past. -/
def bookingExpired (fb : String → Option JSDate) (now : Int) (b : Booking) : Bool :=
  bookingHasNoAction b &&
    match parseDeadline fb b.enddate b.endtime with
    | some dl => decide (dl < now)
    | none => false

/-- Result of one run of the expiry sweep: the rows of its single
`batchUpdateSheet` payload (full A:M rows with the remark replaced), the
in-memory list afterwards, and whether a failure toast was shown. -/
structure ExpiredSweepResult where
  updates : List Booking
  newBookings : List Booking
  reportedError : Bool
deriving Repr, DecidableEq

/-- booking view `handleExpiredBookings`: collect the expired bookings,
rewrite each row with remark `end` in one batch write, and on success drop
the updated row indices from the in-memory list; on failure only report
(`remoteOk` is the outcome of the single batch write; no retry exists). -/
def handleExpiredBookings (fb : String → Option JSDate) (bookings : List Booking)
    (now : Int) (remoteOk : Bool) : ExpiredSweepResult :=
  let updates := (bookings.filter (bookingExpired fb now)).map (fun b => { b with remark := "end" })
  if updates.isEmpty then ⟨[], bookings, false⟩
  else if remoteOk then
    let updatedRowIndices := updates.map (·.rowIndex)
    ⟨updates, bookings.filter (fun b => !updatedRowIndices.contains b.rowIndex), false⟩
  else ⟨updates, bookings, true⟩

/-- booking view `displayBookings`, default filter: the active-booking query
(no action recorded and travel date not before today's midnight). -/
def activeBookings (fb : String → Option JSDate) (bookings : List Booking)
    (todayTime : Int) : List Booking :=
  bookings.filter (fun b =>
    bookingHasNoAction b && decide (todayTime ≤ (parseSheetDate fb b.departing_on).time))

/-- Outcome of booking view `updateBookingStatus`: whether the global
`isSubmitting` guard swallowed the call, the list displayed after the
optimistic removal, the list after the remote write settles, and the batch
payload rows. -/
structure UpdateBookingOutcome where
  guarded : Bool
  optimistic : List Booking
  final : List Booking
  writes : List Booking
deriving Repr, DecidableEq

/-- booking view `updateBookingStatus`: under the `isSubmitting` guard,
snapshot the list, optimistically drop the targeted row indices and
redisplay, then write the rows (remark replaced) in one batch; an empty
payload throws, and any failure restores the snapshot. `remoteOk` is the
batch write's outcome. -/
def updateBookingStatus (allBookings : List Booking) (isSubmitting : Bool)
    (rowIndices : List Nat) (remarks : String) (remoteOk : Bool) : UpdateBookingOutcome :=
  if isSubmitting then ⟨true, allBookings, allBookings, []⟩
  else
    let bookingsToUpdate := rowIndices.filterMap (fun ri => allBookings.find? (·.rowIndex == ri))
    let originalAllBookings := allBookings
    let optimistic := allBookings.filter (fun b => !rowIndices.contains b.rowIndex)
    let data := bookingsToUpdate.map (fun b => { b with remark := remarks })
    if data.isEmpty then ⟨false, optimistic, originalAllBookings, []⟩
    else if remoteOk then ⟨false, optimistic, optimistic, data⟩
    else ⟨false, optimistic, originalAllBookings, data⟩

/-- The character for one decimal digit. -/
def digitChar (k : Nat) : Char :=
  match k with
  | 0 => '0' | 1 => '1' | 2 => '2' | 3 => '3' | 4 => '4'
  | 5 => '5' | 6 => '6' | 7 => '7' | 8 => '8' | _ => '9'

/-- Little-endian decimal digits of a positive number. -/
def natDigitsRev : Nat → List Char
  | 0 => []
  | n + 1 => digitChar ((n + 1) % 10) :: natDigitsRev ((n + 1) / 10)
decreasing_by exact Nat.div_lt_self (Nat.succ_pos n) (by omega)

/-- Decimal rendering of a natural number, as `String(n)` renders it. -/
def renderNat (n : Nat) : List Char := if n = 0 then ['0'] else (natDigitsRev n).reverse

/-- `String(n).padStart(2, '0')` for the two-digit date components. -/
def pad2 (n : Nat) : List Char := if n < 10 then '0' :: renderNat n else renderNat n

/-- `MM/DD/YYYY` rendering of a date, the sheet storage format. -/
def renderMMDD (d : JSDate) : String :=
  String.mk (pad2 (d.month + 1) ++ '/' :: (pad2 d.day ++ '/' :: renderNat d.year.toNat))

/-- utils.js `formatDateForSheet`: empty in, empty out; otherwise parse with
the host's generic parser `fb` and render `MM/DD/YYYY`, or return the input
unchanged when the parse is invalid. -/
def formatDateForSheet (fb : String → Option JSDate) (s : String) : String :=
  if s.toList = [] then ""
  else
    match fb s with
    | none => s
    | some d => renderMMDD d

/-- The values read from the update-ticket(s) form of manage.js
`handleUpdateTicket`: `none` models an empty numeric input (`parseFloat` →
`NaN`), the fee amounts already carry the `|| 0` default, and
`paymentMethod` is the already-formatted method string. -/
structure UpdateTicketForm where
  travelDate : String
  baseFare : Option Int
  netAmount : Option Int
  commission : Option Int
  dateChangeFees : Int
  extraFare : Int
  paid : Bool
  paymentMethod : String
  paidDate : String
deriving Repr, DecidableEq

/-- The rewritten A:V row manage.js `handleUpdateTicket` builds for one
existing row of the PNR (the batch-update payload for that row's range). -/
def updatedPnrRow (fb : String → Option JSDate) (form : UpdateTicketForm)
    (hasNewFees : Bool) (finalPaid : Bool) (finalPaymentMethod finalPaidDate : String)
    (ticket : Ticket) : Ticket :=
  { ticket with
    departing_on :=
      if form.travelDate ≠ "" then formatDateForSheet fb form.travelDate else ticket.departing_on
    base_fare :=
      match form.baseFare with
      | some v => if !isFeeRow ticket then v else ticket.base_fare
      | none => ticket.base_fare
    net_amount :=
      match form.netAmount with
      | some v => if !isFeeRow ticket then v else ticket.net_amount
      | none => ticket.net_amount
    commission :=
      match form.commission with
      | some v => if !isFeeRow ticket then v else ticket.commission
      | none => ticket.commission
    paid := if hasNewFees then ticket.paid else finalPaid
    payment_method := if hasNewFees then ticket.payment_method else finalPaymentMethod
    paid_date := if hasNewFees then ticket.paid_date else finalPaidDate }

/-- `finalPaymentMethod` of manage.js `handleUpdateTicket`: the form's
method when paid (falling back to the original's trimmed method), empty when
unpaid. -/
def finalMethodFor (form : UpdateTicketForm) (originalTicket : Ticket) : String :=
  if form.paid then
    (if form.paymentMethod ≠ "" then form.paymentMethod
     else jsTrimStr originalTicket.payment_method)
  else ""

/-- `originalPaidDate` of manage.js `handleUpdateTicket`. -/
def originalPaidDateFor (fb : String → Option JSDate) (originalTicket : Ticket) : String :=
  if originalTicket.paid then formatDateForSheet fb originalTicket.paid_date else ""

/-- `finalPaidDate` of manage.js `handleUpdateTicket` (`today` models
`formatDateForSheet(new Date())`). -/
def finalPaidDateFor (fb : String → Option JSDate) (today : String)
    (form : UpdateTicketForm) (originalTicket : Ticket) : String :=
  if form.paid then
    (if form.paidDate ≠ "" then formatDateForSheet fb form.paidDate
     else (if originalPaidDateFor fb originalTicket ≠ ""
       then originalPaidDateFor fb originalTicket else today))
  else ""

/-- Did a numeric form field change: the input is a number and differs from
the current value (`NaN` inputs never count). -/
def numChanged (input : Option Int) (current : Int) : Bool :=
  match input with
  | some v => decide (v ≠ current)
  | none => false

/-- The `historyDetails.length === 0` bail-out of manage.js
`handleUpdateTicket`, as the disjunction of the conditions that push a
detail line. -/
def hasChangesFor (fb : String → Option JSDate) (today : String)
    (form : UpdateTicketForm) (originalTicket : Ticket) : Bool :=
  (form.travelDate ≠ "" &&
    (parseSheetDate fb form.travelDate).time ≠
      (parseSheetDate fb originalTicket.departing_on).time) ||
  numChanged form.baseFare originalTicket.base_fare ||
  numChanged form.netAmount originalTicket.net_amount ||
  numChanged form.commission originalTicket.commission ||
  form.dateChangeFees > 0 || form.extraFare > 0 ||
  (!(form.dateChangeFees > 0 || form.extraFare > 0) &&
    (form.paid ≠ originalTicket.paid ||
      finalMethodFor form originalTicket ≠
        (if form.paid then jsTrimStr originalTicket.payment_method else "") ||
      finalPaidDateFor fb today form originalTicket ≠
        (if form.paid then originalPaidDateFor fb originalTicket else "")))

/-- The brand-new fee row manage.js `handleUpdateTicket` appends: issued
today, named after the original with the `(Fees)` suffix, zero
base/net/commission, the fee amounts in the fee columns, and the form's
payment status. -/
def feeRowFor (fb : String → Option JSDate) (today : String)
    (form : UpdateTicketForm) (originalTicket : Ticket) : Ticket :=
  { issued_date := today
    name := originalTicket.name ++ " (Fees)"
    id_no := originalTicket.id_no
    phone := originalTicket.phone
    account_name := originalTicket.account_name
    account_type := originalTicket.account_type
    account_link := originalTicket.account_link
    departure := originalTicket.departure
    destination := originalTicket.destination
    departing_on :=
      if form.travelDate ≠ "" then formatDateForSheet fb form.travelDate
      else originalTicket.departing_on
    airline := originalTicket.airline
    base_fare := 0
    booking_reference := originalTicket.booking_reference
    net_amount := 0
    paid := form.paid
    payment_method := finalMethodFor form originalTicket
    paid_date :=
      if form.paid then
        (if form.paidDate ≠ "" then formatDateForSheet fb form.paidDate else today)
      else ""
    commission := 0
    remarks := "Fee Entry"
    extra_fare := form.extraFare
    date_change := form.dateChangeFees
    gender := originalTicket.gender
    rowIndex := 0 }

/-- manage.js `handleUpdateTicket`: rewrite every row of the PNR (payment
fields only when no fee is being added), and append one brand-new fee row
dated `today` when a positive fee amount was entered. Returns `none` when
the code bails out: no row carries the PNR (the JS would fault reading
`originalTicket.paid`) or no change was detected. The first component is
the batch-update payload, the second the appended rows. -/
def handleUpdateTicket (fb : String → Option JSDate) (today : String)
    (allTickets : List Ticket) (pnr : String) (form : UpdateTicketForm) :
    Option (List Ticket × List Ticket) :=
  match allTickets.filter (·.booking_reference == pnr) with
  | [] => none
  | originalTicket :: rest =>
    if hasChangesFor fb today form originalTicket then
      some ((originalTicket :: rest).map
          (updatedPnrRow fb form (form.dateChangeFees > 0 || form.extraFare > 0)
            form.paid (finalMethodFor form originalTicket)
            (finalPaidDateFor fb today form originalTicket)),
        if form.dateChangeFees > 0 || form.extraFare > 0
          then [feeRowFor fb today form originalTicket] else [])
    else none

/-- An all-empty ticket row, the base for the concrete rows used below. -/
def emptyTicket : Ticket :=
  { issued_date := "", name := "", id_no := "", phone := "", account_name := ""
    account_type := "", account_link := "", departure := "", destination := ""
    departing_on := "", airline := "", base_fare := 0, booking_reference := ""
    net_amount := 0, paid := false, payment_method := "", paid_date := ""
    commission := 0, remarks := "", extra_fare := 0, date_change := 0
    gender := "", rowIndex := 0 }

/-- An all-empty booking row, the base for the concrete rows used below. -/
def emptyBooking : Booking :=
  { name := "", id_no := "", phone := "", account_name := "", account_type := ""
    account_link := "", departure := "", destination := "", departing_on := ""
    pnr := "", remark := "", enddate := "", endtime := "", rowIndex := 0 }

/-- A concrete booking with a well-formed deadline of 10:30 AM Nov 12 2025. -/
def bookingW : Booking :=
  { emptyBooking with enddate := "11/12/2025", endtime := "10:30 AM", rowIndex := 2 }

/-- A concrete booking whose endtime lacks the AM/PM tag. -/
def bookingBadTimeW : Booking :=
  { emptyBooking with enddate := "11/12/2025", endtime := "1030", rowIndex := 2 }

/-- The fee row of the C4 scenario. -/
def c4feeRow : Ticket :=
  { emptyTicket with
    booking_reference := "AB1"
    name := "JOHN (Fees)"
    remarks := "Fee Entry"
    net_amount := 0
    extra_fare := 5000 }

/-- The unpaid original ticket of the C4 scenario. -/
def c4original : Ticket :=
  { emptyTicket with
    booking_reference := "AB1"
    name := "MR JOHN"
    net_amount := 100000
    paid := false }

/-- The two-ticket scenario of the C4 claim: a fee row and an unpaid
original ticket sharing PNR AB1. -/
def c4tickets : List Ticket := [c4feeRow, c4original]

/-- Claim-side predicate: the remarks contain "fee entry" case-insensitively. -/
def specFeeRemarks (t : Ticket) : Bool :=
  decide ("fee entry".toList <:+: (lowerStr t.remarks).toList)

/-- Claim-side predicate: the lower-cased name, with trailing whitespace
discarded, ends with the literal `(fees)`. -/
def specNameEndsFees (name : String) : Bool :=
  "(fees)".toList.isSuffixOf (((name.toList.map Char.toLower).reverse.dropWhile
    jsWhitespace).reverse)

/-- Claim-side predicate: the lower-cased name contains `(fees)` anywhere. -/
def specNameContainsFees (name : String) : Bool :=
  decide ("(fees)".toList <:+: (lowerStr name).toList)

/-- The C9 counterexample row: `(Fees)` occurs mid-name. -/
def c9ticket : Ticket := { emptyTicket with name := "JOHN (Fees) JR" }

/-- Claim-side active-ticket predicate of the spec: remarks contain neither
"cancel" nor "refund", case-insensitively. -/
def specActiveTicket (t : Ticket) : Bool :=
  !(decide ("cancel".toList <:+: (lowerStr t.remarks).toList) ||
    decide ("refund".toList <:+: (lowerStr t.remarks).toList))

/-- Claim-side revenue figure: `net_amount + date_change` summed over the
active tickets issued in the given month. -/
def specActiveRevenue (fb : String → Option JSDate) (tickets : List Ticket)
    (nowYear : Int) (nowMonth : Nat) : Int :=
  ((tickets.filter (fun t =>
    (ticketDate fb t).month == nowMonth && (ticketDate fb t).year == nowYear &&
      specActiveTicket t)).map revTerm).sum

/-- The C8 counterexample row: a partially cancelled ticket issued Nov 5
2025; its remarks contain both "cancel" and "refund" but not "full refund". -/
def c8ticket : Ticket :=
  { emptyTicket with
    issued_date := "11/05/2025"
    remarks := "Canceled on 11/06/2025 with 5,000 refund"
    net_amount := 100 }

/-- Claim-side legacy carry-over: the prior calendar month's revenue minus
its commission minus its settlements (one month of lookback only). -/
def specLegacyPreviousDue (fb : String → Option JSDate) (tickets : List Ticket)
    (settlements : List Settlement) (startDate : JSDate) : Int :=
  let p := prevMonthOf startDate.year startDate.month
  let monthTickets := tickets.filter (fun t =>
    decide ((ticketDate fb t).month = p.2) && decide ((ticketDate fb t).year = p.1) &&
      !(decide ("full refund".toList <:+: (lowerStr t.remarks).toList)))
  let monthSettlements := settlements.filter (fun s =>
    decide ((settlementDate fb s).month = p.2) && decide ((settlementDate fb s).year = p.1))
  (monthTickets.map revTerm).sum - (monthTickets.map (·.commission)).sum -
    (monthSettlements.map (·.amount_paid)).sum

/-- Claim-side reset carry-over: revenue minus commission summed per ticket,
minus the settlements, over everything dated from the cutover instant
(inclusive) up to the period start (exclusive). -/
def specResetPreviousDue (fb : String → Option JSDate) (tickets : List Ticket)
    (settlements : List Settlement) (startDate : JSDate) : Int :=
  let windowTickets := tickets.filter (fun t =>
    decide (resetTimeMs ≤ (ticketDate fb t).time ∧ (ticketDate fb t).time < startDate.time) &&
      !(decide ("full refund".toList <:+: (lowerStr t.remarks).toList)))
  let windowSettlements := settlements.filter (fun s =>
    decide (resetTimeMs ≤ (settlementDate fb s).time ∧
      (settlementDate fb s).time < startDate.time))
  (windowTickets.map (fun t => revTerm t - t.commission)).sum -
    (windowSettlements.map (·.amount_paid)).sum

/-- The concrete original ticket of the C5 witness. -/
def c5ticket : Ticket :=
  { emptyTicket with
    booking_reference := "PNR1"
    name := "MS JANE"
    net_amount := 200000
    base_fare := 150000
    commission := 7000
    paid := true
    payment_method := "Cash"
    paid_date := "11/02/2025"
    rowIndex := 5 }

/-- The concrete form input of the C5 witness: add a 5000 extra fare, leave
everything else untouched, fee unpaid. -/
def c5form : UpdateTicketForm :=
  { travelDate := ""
    baseFare := none
    netAmount := none
    commission := none
    dateChangeFees := 0
    extraFare := 5000
    paid := false
    paymentMethod := ""
    paidDate := "" }

/-- The MM/DD/YYYY spelling of a calendar date (0-based month). -/
def mmddChars (y m d : Nat) : List Char :=
  pad2 (m + 1) ++ '/' :: (pad2 d ++ '/' :: renderNat y)

def mmddStr (y m d : Nat) : String := String.mk (mmddChars y m d)

/-- The month abbreviation used in the DD-Mon-YYYY spelling. -/
def monthName (m : Nat) : List Char :=
  match m with
  | 0 => "Jan".toList
  | 1 => "Feb".toList
  | 2 => "Mar".toList
  | 3 => "Apr".toList
  | 4 => "May".toList
  | 5 => "Jun".toList
  | 6 => "Jul".toList
  | 7 => "Aug".toList
  | 8 => "Sep".toList
  | 9 => "Oct".toList
  | 10 => "Nov".toList
  | _ => "Dec".toList

/-- The DD-Mon-YYYY spelling of a calendar date (0-based month). -/
def dmonChars (y m d : Nat) : List Char :=
  pad2 d ++ '-' :: (monthName m ++ '-' :: renderNat y)

def dmonStr (y m d : Nat) : String := String.mk (dmonChars y m d)

theorem splitSep_ne_nil (cs : List Char) : splitSep cs ≠ [] := by
  cases cs with
  | nil => simp [splitSep]
  | cons c t =>
    unfold splitSep
    cases h : splitSep t with
    | nil => simp
    | cons cur rest =>
      dsimp only
      split <;> simp

theorem contains_nat_iff (l : List Nat) (n : Nat) : l.contains n = true ↔ n ∈ l :=
  List.elem_iff

theorem isEmpty_false_of_mem {α : Type} {a : α} {l : List α} (h : a ∈ l) :
    l.isEmpty = false := by
  cases l with
  | nil => exact absurd h (List.not_mem_nil a)
  | cons x t => rfl

/-- C6: the booking-status update first removes the targeted row indices from
the in-memory active list (the optimistically displayed list is exactly the
original minus those row indices), and when the remote batch write fails the
list is rolled back to exactly the members it held before the optimistic
removal. -/
theorem C6_booking_status_rollback (allBookings : List Booking) (rowIndices : List Nat)
    (remarks : String) :
    (updateBookingStatus allBookings false rowIndices remarks false).optimistic =
      allBookings.filter (fun b => !rowIndices.contains b.rowIndex) ∧
    (updateBookingStatus allBookings false rowIndices remarks false).final = allBookings := by
  unfold updateBookingStatus
  rw [if_neg (by simp)]
  dsimp only
  split
  · exact ⟨rfl, rfl⟩
  · rw [if_neg (by simp)]
    exact ⟨rfl, rfl⟩

/-- C7: on a booking load, every booking with no recorded action whose parsed
deadline lies strictly in the past is put into the single batch write with
its remark set to `end`; after a successful write it is gone from the
in-memory list and hence from every active-booking query, while a failed
write is only reported (`reportedError`) and leaves the list unchanged, so
nothing is retried within the same load. -/
theorem C7_expiry_sweep (fb : String → Option JSDate) (bookings : List Booking)
    (now : Int) (b : Booking) (dl : Int)
    (hb : b ∈ bookings) (hr : bookingHasNoAction b = true)
    (hdl : parseDeadline fb b.enddate b.endtime = some dl) (hlt : dl < now) :
    (∃ u ∈ (handleExpiredBookings fb bookings now true).updates,
        u.rowIndex = b.rowIndex ∧ u.remark = "end") ∧
    b ∉ (handleExpiredBookings fb bookings now true).newBookings ∧
    (∀ todayTime, b ∉ activeBookings fb
      (handleExpiredBookings fb bookings now true).newBookings todayTime) ∧
    (handleExpiredBookings fb bookings now false).newBookings = bookings ∧
    (handleExpiredBookings fb bookings now false).reportedError = true := by
  have hexp : bookingExpired fb now b = true := by
    unfold bookingExpired
    rw [hr, hdl]
    simpa using hlt
  have hmemf : b ∈ bookings.filter (bookingExpired fb now) :=
    List.mem_filter.mpr ⟨hb, hexp⟩
  have hmemu : ({ b with remark := "end" } : Booking) ∈
      (bookings.filter (bookingExpired fb now)).map (fun x => { x with remark := "end" }) :=
    List.mem_map.mpr ⟨b, hmemf, rfl⟩
  have hne : ((bookings.filter (bookingExpired fb now)).map
      (fun x => { x with remark := "end" })).isEmpty = false := isEmpty_false_of_mem hmemu
  have hsucc : handleExpiredBookings fb bookings now true =
      ⟨(bookings.filter (bookingExpired fb now)).map (fun x => { x with remark := "end" }),
        bookings.filter (fun x => !(((bookings.filter (bookingExpired fb now)).map
          (fun x => { x with remark := "end" })).map (·.rowIndex)).contains x.rowIndex),
        false⟩ := by
    unfold handleExpiredBookings
    dsimp only
    rw [hne]
    rfl
  have hfail : handleExpiredBookings fb bookings now false =
      ⟨(bookings.filter (bookingExpired fb now)).map (fun x => { x with remark := "end" }),
        bookings, true⟩ := by
    unfold handleExpiredBookings
    dsimp only
    rw [hne]
    rfl
  have hidx : (((bookings.filter (bookingExpired fb now)).map
      (fun x => { x with remark := "end" })).map (·.rowIndex)).contains b.rowIndex = true := by
    refine (contains_nat_iff _ _).mpr ?_
    exact List.mem_map.mpr ⟨{ b with remark := "end" }, hmemu, rfl⟩
  have hnotmem : b ∉ bookings.filter (fun x => !(((bookings.filter (bookingExpired fb now)).map
      (fun x => { x with remark := "end" })).map (·.rowIndex)).contains x.rowIndex) := by
    intro hmem
    have h2 := (List.mem_filter.mp hmem).2
    rw [hidx] at h2
    simp at h2
  refine ⟨?_, ?_, ?_, ?_, ?_⟩
  · rw [hsucc]
    exact ⟨{ b with remark := "end" }, hmemu, rfl, rfl⟩
  · rw [hsucc]
    exact hnotmem
  · intro todayTime hmem
    rw [hsucc] at hmem
    exact hnotmem (List.mem_filter.mp hmem).1
  · rw [hfail]
  · rw [hfail]

/-- C7 witness: the concrete expired booking `bookingW` (`now` one
millisecond past its deadline) flows through the sweep as the theorem
states. -/
theorem C7_expiry_sweep_witness :
    bookingW ∈ [bookingW] ∧
    (∃ u ∈ (handleExpiredBookings (fun _ => none) [bookingW] 1762943400001 true).updates,
      u.rowIndex = bookingW.rowIndex ∧ u.remark = "end") := by
  refine ⟨by decide, ?_⟩
  exact (C7_expiry_sweep (fun _ => none) [bookingW] 1762943400001 bookingW
    1762943400000 (by decide) (by decide) (by decide) (by decide)).1

/-- C10: `parseDeadline` yields `null` whenever the date or time string is
empty, the time string fails the hh:mm AM/PM pattern, or the date parses to
the epoch sentinel; a booking whose deadline is `null` is never picked up by
the expiry sweep and stays in the in-memory list no matter the write
outcome. -/
theorem C10_null_deadline_never_expires :
    (∀ (fb : String → Option JSDate) (dateStr timeStr : String),
      dateStr.toList = [] ∨ timeStr.toList = [] ∨ timeMatch timeStr.toList = none ∨
        (parseSheetDate fb dateStr).time = 0 →
      parseDeadline fb dateStr timeStr = none) ∧
    (∀ (fb : String → Option JSDate) (bookings : List Booking) (now : Int) (remoteOk : Bool)
        (b : Booking), b ∈ bookings →
      parseDeadline fb b.enddate b.endtime = none →
      (∀ b2 ∈ bookings, b2.rowIndex = b.rowIndex → b2 = b) →
      b ∈ (handleExpiredBookings fb bookings now remoteOk).newBookings) := by
  constructor
  · intro fb dateStr timeStr h
    unfold parseDeadline
    rcases h with h | h | h | h
    · rw [if_pos (Or.inl h)]
    · rw [if_pos (Or.inr h)]
    · by_cases he : dateStr.toList = [] ∨ timeStr.toList = []
      · rw [if_pos he]
      · rw [if_neg he]
        dsimp only
        split
        · rfl
        · rw [h]
    · by_cases he : dateStr.toList = [] ∨ timeStr.toList = []
      · rw [if_pos he]
      · rw [if_neg he]
        dsimp only
        rw [if_pos h]
  · intro fb bookings now remoteOk b hb hnone hinj
    have hnotexp : bookingExpired fb now b = false := by
      unfold bookingExpired
      rw [hnone]
      simp
    have hcont : (((bookings.filter (bookingExpired fb now)).map
        (fun x => { x with remark := "end" })).map (·.rowIndex)).contains b.rowIndex = false := by
      cases hcb : (((bookings.filter (bookingExpired fb now)).map
          (fun x => { x with remark := "end" })).map (·.rowIndex)).contains b.rowIndex with
      | false => rfl
      | true =>
        exfalso
        rcases List.mem_map.mp ((contains_nat_iff _ _).mp hcb) with ⟨u, hu, hru⟩
        rcases List.mem_map.mp hu with ⟨b2, hb2, rfl⟩
        have hb2mem : b2 ∈ bookings := (List.mem_filter.mp hb2).1
        have hb2exp : bookingExpired fb now b2 = true := (List.mem_filter.mp hb2).2
        have hbb : b2 = b := hinj b2 hb2mem hru
        rw [hbb, hnotexp] at hb2exp
        exact Bool.false_ne_true hb2exp
    unfold handleExpiredBookings
    dsimp only
    split
    · exact hb
    · split
      · refine List.mem_filter.mpr ⟨hb, ?_⟩
        rw [hcont]
        rfl
      · exact hb

/-- C10 witness: a malformed deadline (time string without AM/PM) is `null`
and the booking survives a sweep with an old `now`. -/
theorem C10_null_deadline_witness :
    parseDeadline (fun _ => none) "11/12/2025" "1030" = none ∧
    bookingBadTimeW ∈ (handleExpiredBookings (fun _ => none) [bookingBadTimeW]
      9999999999999 true).newBookings := by
  constructor
  · exact C10_null_deadline_never_expires.1 (fun _ => none) "11/12/2025" "1030"
      (Or.inr (Or.inr (Or.inl (by decide))))
  · exact C10_null_deadline_never_expires.2 (fun _ => none) [bookingBadTimeW]
      9999999999999 true bookingBadTimeW (by decide) (by decide) (by decide)

theorem addToGroups_sum (t : Ticket) (gs : List UnpaidGroup) :
    ((addToGroups t gs).map (·.totalDue)).sum = (gs.map (·.totalDue)).sum + unpaidAmt t := by
  induction gs with
  | nil => simp [addToGroups]
  | cons g gs ih =>
    unfold addToGroups
    split
    · simp only [List.map_cons, List.sum_cons]
      omega
    · simp only [List.map_cons, List.sum_cons, ih]
      omega

theorem unpaidGroups_sum_aux (ts : List Ticket) (gs : List UnpaidGroup) :
    ((ts.foldl (fun acc t => if unpaidEligible t then addToGroups t acc else acc) gs).map
      (·.totalDue)).sum
      = (gs.map (·.totalDue)).sum + ((ts.filter unpaidEligible).map unpaidAmt).sum := by
  induction ts generalizing gs with
  | nil => simp
  | cons t ts ih =>
    simp only [List.foldl_cons, List.filter_cons]
    by_cases h : unpaidEligible t = true
    · rw [if_pos h, if_pos h, ih, addToGroups_sum]
      simp only [List.map_cons, List.sum_cons]
      omega
    · rw [if_neg h, if_neg h, ih]

/-- C3: grouping the unpaid, non-cancelled tickets by upper-cased PNR is a
partition of the amounts: the group totals sum to the sum of
`net_amount + extra_fare + date_change` over the individually filtered
tickets, with no double counting and no omissions. -/
theorem C3_unpaid_grouping_partition (tickets : List Ticket) :
    ((unpaidGroups tickets).map (·.totalDue)).sum
      = ((tickets.filter unpaidEligible).map unpaidAmt).sum := by
  unfold unpaidGroups
  simpa using unpaidGroups_sum_aux tickets []

/-- C4 counterexample: on the claim's own two-ticket input no unpaid group
has both the claimed amount and the claimed passenger list `["JOHN"]`. -/
theorem C4_passengers_counterexample :
    ¬ ∃ g ∈ unpaidGroups c4tickets,
      g.pnr = "AB1" ∧ g.totalDue = 105000 ∧ g.passengers = ["JOHN"] := by
  decide

/-- C4 amended: the group for PNR AB1 does carry amountDue 105000 with no
"Unknown" placeholder, but its passenger list is `["JOHN", "MR JOHN"]`: the
fee row's name normalizes to JOHN, and the original row's name MR JOHN is a
different string, so both are kept. -/
theorem C4_unpaid_scenario :
    unpaidGroups c4tickets = [⟨"AB1", ["JOHN", "MR JOHN"], 105000⟩] := by
  decide

theorem scanHolds_iff (p : List Char → Bool) (cs : List Char) :
    scanHolds p cs = true ↔ ∃ a b, cs = a ++ b ∧ p b = true := by
  induction cs with
  | nil =>
    constructor
    · intro h
      exact ⟨[], [], rfl, h⟩
    · rintro ⟨a, b, hab, hp⟩
      rcases List.append_eq_nil.mp hab.symm with ⟨rfl, rfl⟩
      exact hp
  | cons c t ih =>
    simp only [scanHolds, Bool.or_eq_true]
    constructor
    · rintro (h | h)
      · exact ⟨[], c :: t, rfl, h⟩
      · rcases ih.mp h with ⟨a, b, hab, hp⟩
        exact ⟨c :: a, b, by rw [List.cons_append, ← hab], hp⟩
    · rintro ⟨a, b, hab, hp⟩
      cases a with
      | nil =>
        left
        rw [List.nil_append] at hab
        rw [hab]
        exact hp
      | cons a0 a1 =>
        right
        rw [List.cons_append] at hab
        injection hab with h1 h2
        exact ih.mpr ⟨a1, b, h2, hp⟩

theorem jsIncludes_iff (s sub : String) :
    jsIncludes s sub = true ↔ sub.toList <:+: s.toList := by
  unfold jsIncludes
  rw [scanHolds_iff]
  constructor
  · rintro ⟨a, b, hab, hp⟩
    rcases List.isPrefixOf_iff_prefix.mp hp with ⟨t, ht⟩
    exact ⟨a, t, by rw [List.append_assoc, ht, ← hab]⟩
  · rintro ⟨a, t, h⟩
    refine ⟨a, sub.toList ++ t, by rw [← h, List.append_assoc], ?_⟩
    exact List.isPrefixOf_iff_prefix.mpr ⟨t, rfl⟩

theorem jsIncludes_eq_decide (s sub : String) :
    jsIncludes s sub = decide (sub.toList <:+: s.toList) := by
  by_cases h : sub.toList <:+: s.toList
  · rw [(jsIncludes_iff s sub).mpr h, decide_eq_true h]
  · rw [decide_eq_false h]
    exact Bool.eq_false_iff.mpr (fun hc => h ((jsIncludes_iff s sub).mp hc))

theorem dropWhile_append_of_all {p : Char → Bool} {xs ys : List Char}
    (h : ∀ x ∈ xs, p x = true) : (xs ++ ys).dropWhile p = ys.dropWhile p := by
  induction xs with
  | nil => rfl
  | cons x t ih =>
    rw [List.cons_append, List.dropWhile_cons, if_pos (h x (by simp))]
    exact ih (fun y hy => h y (by simp [hy]))

theorem feesEndAt_iff (b : List Char) :
    feesEndAt b = true ↔
      ∃ w, b.map Char.toLower = "(fees)".toList ++ w ∧ w.all jsWhitespace = true := by
  unfold feesEndAt
  rw [Bool.and_eq_true]
  constructor
  · rintro ⟨hpre, hall⟩
    rcases List.isPrefixOf_iff_prefix.mp hpre with ⟨t, ht⟩
    refine ⟨t, ht.symm, ?_⟩
    have hd : (b.map Char.toLower).drop 6 = t := by
      rw [← ht]
      exact List.drop_left "(fees)".toList t
    rw [hd] at hall
    exact hall
  · rintro ⟨w, hw, hall⟩
    refine ⟨List.isPrefixOf_iff_prefix.mpr ⟨w, hw.symm⟩, ?_⟩
    rw [hw]
    have h6 : (("(fees)".toList ++ w).drop 6) = w := List.drop_left "(fees)".toList w
    rw [h6]
    exact hall

theorem feesScan_iff (cs : List Char) :
    scanHolds feesEndAt cs = true ↔
      ∃ A w, cs.map Char.toLower = A ++ "(fees)".toList ++ w ∧ w.all jsWhitespace = true := by
  rw [scanHolds_iff]
  constructor
  · rintro ⟨a, b, rfl, hp⟩
    rcases (feesEndAt_iff b).mp hp with ⟨w, hw, hall⟩
    exact ⟨a.map Char.toLower, w, by rw [List.map_append, hw, List.append_assoc], hall⟩
  · rintro ⟨A, w, h, hall⟩
    refine ⟨cs.take A.length, cs.drop A.length, (List.take_append_drop A.length cs).symm, ?_⟩
    refine (feesEndAt_iff _).mpr ⟨w, ?_, hall⟩
    have hmap : (cs.drop A.length).map Char.toLower = (cs.map Char.toLower).drop A.length :=
      List.map_drop Char.toLower cs A.length
    rw [hmap, List.append_assoc] at *
    rw [h]
    exact List.drop_left A ("(fees)".toList ++ w)

theorem suffixAfterTrim_iff (L : List Char) :
    "(fees)".toList.isSuffixOf ((L.reverse.dropWhile jsWhitespace).reverse) = true ↔
      ∃ A w, L = A ++ "(fees)".toList ++ w ∧ w.all jsWhitespace = true := by
  rw [List.isSuffixOf_iff_suffix]
  constructor
  · rintro ⟨A, hA⟩
    refine ⟨A, (L.reverse.takeWhile jsWhitespace).reverse, ?_, ?_⟩
    · have hsplit : L.reverse.takeWhile jsWhitespace ++ L.reverse.dropWhile jsWhitespace =
          L.reverse := List.takeWhile_append_dropWhile jsWhitespace L.reverse
      have hLsplit : L = (L.reverse.dropWhile jsWhitespace).reverse ++
          (L.reverse.takeWhile jsWhitespace).reverse := by
        conv_lhs => rw [← List.reverse_reverse L, ← hsplit]
        rw [List.reverse_append]
      conv_lhs => rw [hLsplit]
      rw [← hA]
    · refine List.all_eq_true.mpr (fun x hx => ?_)
      exact List.mem_takeWhile_imp (List.mem_reverse.mp hx)
  · rintro ⟨A, w, rfl, hall⟩
    have hrev : ((A ++ "(fees)".toList ++ w).reverse) =
        w.reverse ++ ("(fees)".toList.reverse ++ A.reverse) := by
      rw [List.reverse_append, List.reverse_append]
    have hwrev : ∀ x ∈ w.reverse, jsWhitespace x = true := by
      intro x hx
      exact List.all_eq_true.mp hall x (List.mem_reverse.mp hx)
    have hdrop : (A ++ "(fees)".toList ++ w).reverse.dropWhile jsWhitespace =
        "(fees)".toList.reverse ++ A.reverse := by
      rw [hrev, dropWhile_append_of_all hwrev]
      show ((')' :: ("seef(".toList ++ A.reverse)).dropWhile jsWhitespace) = _
      rw [List.dropWhile_cons, if_neg (by decide)]
      rfl
    rw [hdrop]
    refine ⟨A, ?_⟩
    rw [← List.reverse_append, List.reverse_reverse]

theorem feesScan_eq_suffix (cs : List Char) :
    scanHolds feesEndAt cs =
      "(fees)".toList.isSuffixOf (((cs.map Char.toLower).reverse.dropWhile jsWhitespace).reverse) := by
  by_cases h : ∃ A w, cs.map Char.toLower = A ++ "(fees)".toList ++ w ∧
      w.all jsWhitespace = true
  · rw [(feesScan_iff cs).mpr h, (suffixAfterTrim_iff (cs.map Char.toLower)).mpr h]
  · rw [Bool.eq_false_iff.mpr (fun hc => h ((feesScan_iff cs).mp hc)),
      Bool.eq_false_iff.mpr (fun hc => h ((suffixAfterTrim_iff (cs.map Char.toLower)).mp hc))]

/-- C9 counterexample: the two fee-row classifiers disagree on a name whose
`(Fees)` marker is followed by more text, so they do not satisfy one common
if-and-only-if condition. -/
theorem C9_fee_row_counterexample :
    isFeeRow c9ticket = true ∧ isFeeEntryRow c9ticket = false ∧
    specNameEndsFees c9ticket.name = false ∧ specFeeRemarks c9ticket = false := by
  decide

/-- C9 amended: the dashboard's `isFeeEntryRow` holds iff the name (after
discarding trailing whitespace) ends with `(Fees)` case-insensitively or the
remarks contain "fee entry"; the manage view's `isFeeRow` instead tests
whether the name *contains* `(fees)` anywhere, so the two agree exactly on
names where every `(fees)` occurrence is terminal, and differ otherwise. -/
theorem C9_fee_row_classifiers (t : Ticket) :
    isFeeEntryRow t = (specNameEndsFees t.name || specFeeRemarks t) ∧
    isFeeRow t = (specNameContainsFees t.name || specFeeRemarks t) := by
  constructor
  · unfold isFeeEntryRow specNameEndsFees specFeeRemarks
    rw [feesScan_eq_suffix, jsIncludes_eq_decide]
  · unfold isFeeRow specNameContainsFees specFeeRemarks
    rw [jsIncludes_eq_decide, jsIncludes_eq_decide]

theorem beq_eq_decide {α : Type} [BEq α] [LawfulBEq α] [DecidableEq α] (a b : α) :
    (a == b) = decide (a = b) := by
  by_cases h : a = b
  · simp [h]
  · simp [h]

theorem decide_and_eq (p q : Prop) [Decidable p] [Decidable q] :
    decide (p ∧ q) = (decide p && decide q) := by
  by_cases hp : p <;> by_cases hq : q <;> simp [hp, hq]

theorem sum_rev_sub_comm (l : List Ticket) :
    (l.map (fun t => revTerm t - t.commission)).sum
      = (l.map revTerm).sum - (l.map (·.commission)).sum := by
  induction l with
  | nil => simp
  | cons x t ih =>
    simp only [List.map_cons, List.sum_cons, ih]
    omega

/-- C8 counterexample: the dashboard's revenue keeps the partially cancelled
ticket (only "full refund" is filtered), while the claimed active-ticket
revenue would drop it, so the two figures differ. -/
theorem C8_revenue_counterexample :
    revenueThisMonth (fun _ => none) [c8ticket] 2025 10 = 100 ∧
    specActiveRevenue (fun _ => none) [c8ticket] 2025 10 = 0 ∧ (100 : Int) ≠ 0 := by
  decide

/-- C8 amended: the settlement dashboard's in-month revenue is
`net_amount + date_change` summed over the tickets of the month whose
remarks do not contain "full refund" (case-insensitively) — partially
cancelled or refunded tickets still count — and the PDF export's in-period
revenue applies no remarks filter at all, only the date window. -/
theorem C8_revenue_filters (fb : String → Option JSDate) (tickets : List Ticket)
    (nowYear : Int) (nowMonth : Nat) (startDate endDate : JSDate) :
    revenueThisMonth fb tickets nowYear nowMonth =
      ((tickets.filter (fun t =>
        (ticketDate fb t).month == nowMonth && (ticketDate fb t).year == nowYear &&
          !(decide ("full refund".toList <:+: (lowerStr t.remarks).toList)))).map revTerm).sum ∧
    exportRangeRevenue fb tickets startDate endDate =
      ((tickets.filter (fun t =>
        decide (startDate.time ≤ (ticketDate fb t).time) &&
          decide ((ticketDate fb t).time ≤ endDate.time))).map revTerm).sum := by
  constructor
  · unfold revenueThisMonth ticketsThisMonth
    have hpt : ∀ t ∈ tickets,
        ((ticketDate fb t).month == nowMonth && (ticketDate fb t).year == nowYear &&
          notFullRefund t)
        = ((ticketDate fb t).month == nowMonth && (ticketDate fb t).year == nowYear &&
          !(decide ("full refund".toList <:+: (lowerStr t.remarks).toList))) := by
      intro t _
      unfold notFullRefund
      rw [jsIncludes_eq_decide]
    rw [List.filter_congr hpt]
  · rfl

/-- C1: the previous-balance figure is computed by exactly one of two
mutually exclusive algorithms, selected by comparing the period start as a
UTC date against the Nov 1 2025 cutover: the one-month legacy lookback
before the cutover, the cumulative since-cutover window from the cutover
on. -/
theorem C1_previous_due_two_modes (fb : String → Option JSDate) (tickets : List Ticket)
    (settlements : List Settlement) (startDate : JSDate) :
    previousEndOfMonthDue fb tickets settlements startDate =
      if dayNumber startDate.year startDate.month startDate.day < dayNumber 2025 10 1 then
        specLegacyPreviousDue fb tickets settlements startDate
      else
        specResetPreviousDue fb tickets settlements startDate := by
  have hcond : (dayNumber startDate.year startDate.month startDate.day * 86400000 <
      resetTimeMs) ↔
      (dayNumber startDate.year startDate.month startDate.day < dayNumber 2025 10 1) := by
    unfold resetTimeMs
    omega
  unfold previousEndOfMonthDue
  by_cases h : dayNumber startDate.year startDate.month startDate.day < dayNumber 2025 10 1
  · rw [if_pos (hcond.mpr h), if_pos h]
    unfold specLegacyPreviousDue
    dsimp only
    have hpt : ∀ t ∈ tickets,
        ((ticketDate fb t).month == (prevMonthOf startDate.year startDate.month).2 &&
          (ticketDate fb t).year == (prevMonthOf startDate.year startDate.month).1 &&
          notFullRefund t)
        = (decide ((ticketDate fb t).month = (prevMonthOf startDate.year startDate.month).2) &&
          decide ((ticketDate fb t).year = (prevMonthOf startDate.year startDate.month).1) &&
          !(decide ("full refund".toList <:+: (lowerStr t.remarks).toList))) := by
      intro t _
      unfold notFullRefund
      rw [jsIncludes_eq_decide, beq_eq_decide, beq_eq_decide]
    have hps : ∀ s ∈ settlements,
        ((settlementDate fb s).month == (prevMonthOf startDate.year startDate.month).2 &&
          (settlementDate fb s).year == (prevMonthOf startDate.year startDate.month).1)
        = (decide ((settlementDate fb s).month = (prevMonthOf startDate.year startDate.month).2) &&
          decide ((settlementDate fb s).year = (prevMonthOf startDate.year startDate.month).1)) := by
      intro s _
      rw [beq_eq_decide, beq_eq_decide]
    rw [List.filter_congr hpt, List.filter_congr hps]
    omega
  · rw [if_neg (fun hc => h (hcond.mp hc)), if_neg h]
    unfold specResetPreviousDue
    dsimp only
    have hpt : ∀ t ∈ tickets,
        ((decide (resetTimeMs ≤ (ticketDate fb t).time) &&
          decide ((ticketDate fb t).time < startDate.time)) && notFullRefund t)
        = (decide (resetTimeMs ≤ (ticketDate fb t).time ∧
            (ticketDate fb t).time < startDate.time) &&
          !(decide ("full refund".toList <:+: (lowerStr t.remarks).toList))) := by
      intro t _
      unfold notFullRefund
      rw [jsIncludes_eq_decide, decide_and_eq]
    have hps : ∀ s ∈ settlements,
        (decide (resetTimeMs ≤ (settlementDate fb s).time) &&
          decide ((settlementDate fb s).time < startDate.time))
        = decide (resetTimeMs ≤ (settlementDate fb s).time ∧
            (settlementDate fb s).time < startDate.time) := by
      intro s _
      rw [decide_and_eq]
    rw [List.filter_congr hpt, List.filter_congr hps, sum_rev_sub_comm]
    omega

theorem hasChangesFor_of_fees (fb : String → Option JSDate) (today : String)
    (form : UpdateTicketForm) (originalTicket : Ticket)
    (hfees : 0 < form.dateChangeFees ∨ 0 < form.extraFare) :
    hasChangesFor fb today form originalTicket = true := by
  unfold hasChangesFor
  rcases hfees with h | h <;> simp [h]

/-- C5: updating a PNR with a positive fee amount while leaving the fare
inputs at their current values (or empty) appends exactly one new fee row —
issued today, referencing the same PNR, zero base fare / net amount /
commission, the fee amounts in `extra_fare`/`date_change`, and the form's
paid status — while every original row of the PNR keeps its paid status,
payment method, paid date, net amount, base fare and commission. -/
theorem C5_fee_row_append (fb : String → Option JSDate) (today : String)
    (allTickets : List Ticket) (pnr : String) (form : UpdateTicketForm)
    (hfees : 0 < form.dateChangeFees ∨ 0 < form.extraFare)
    (hne : allTickets.filter (·.booking_reference == pnr) ≠ [])
    (hbase : ∀ t ∈ allTickets.filter (·.booking_reference == pnr),
      form.baseFare = none ∨ form.baseFare = some t.base_fare)
    (hnet : ∀ t ∈ allTickets.filter (·.booking_reference == pnr),
      form.netAmount = none ∨ form.netAmount = some t.net_amount)
    (hcomm : ∀ t ∈ allTickets.filter (·.booking_reference == pnr),
      form.commission = none ∨ form.commission = some t.commission) :
    ∃ batch fee, handleUpdateTicket fb today allTickets pnr form = some (batch, [fee]) ∧
      fee.issued_date = today ∧ fee.booking_reference = pnr ∧
      fee.base_fare = 0 ∧ fee.net_amount = 0 ∧ fee.commission = 0 ∧
      fee.extra_fare = form.extraFare ∧ fee.date_change = form.dateChangeFees ∧
      fee.paid = form.paid ∧
      batch.length = (allTickets.filter (·.booking_reference == pnr)).length ∧
      (∀ t ∈ allTickets.filter (·.booking_reference == pnr), ∃ u ∈ batch,
        u.rowIndex = t.rowIndex ∧ u.paid = t.paid ∧ u.payment_method = t.payment_method ∧
        u.paid_date = t.paid_date ∧ u.net_amount = t.net_amount ∧
        u.base_fare = t.base_fare ∧ u.commission = t.commission) := by
  have hhnf : (form.dateChangeFees > 0 || form.extraFare > 0) = true := by
    rcases hfees with h | h <;> simp [h]
  rcases hfil : allTickets.filter (·.booking_reference == pnr) with _ | ⟨o, rest⟩
  · exact absurd hfil hne
  · have heq : handleUpdateTicket fb today allTickets pnr form =
        some ((o :: rest).map
            (updatedPnrRow fb form true form.paid (finalMethodFor form o)
              (finalPaidDateFor fb today form o)),
          [feeRowFor fb today form o]) := by
      unfold handleUpdateTicket
      rw [hfil]
      dsimp only
      rw [if_pos (hasChangesFor_of_fees fb today form o hfees), hhnf]
      rw [if_pos rfl]
    have homem : o ∈ allTickets.filter (·.booking_reference == pnr) := by
      rw [hfil]
      exact List.mem_cons_self o rest
    have hopnr : o.booking_reference = pnr :=
      eq_of_beq (List.mem_filter.mp homem).2
    refine ⟨(o :: rest).map (updatedPnrRow fb form true form.paid (finalMethodFor form o)
        (finalPaidDateFor fb today form o)), feeRowFor fb today form o, heq,
      rfl, hopnr, rfl, rfl, rfl, rfl, rfl, rfl, by rw [hfil, List.length_map], ?_⟩
    intro t ht
    rw [hfil] at ht
    refine ⟨updatedPnrRow fb form true form.paid (finalMethodFor form o)
        (finalPaidDateFor fb today form o) t, List.mem_map.mpr ⟨t, ht, rfl⟩, rfl, rfl, rfl, rfl,
      ?_, ?_, ?_⟩
    · rcases hnet t (by rw [hfil]; exact ht) with h | h
      · unfold updatedPnrRow
        rw [h]
      · unfold updatedPnrRow
        rw [h]
        dsimp only
        split <;> rfl
    · rcases hbase t (by rw [hfil]; exact ht) with h | h
      · unfold updatedPnrRow
        rw [h]
      · unfold updatedPnrRow
        rw [h]
        dsimp only
        split <;> rfl
    · rcases hcomm t (by rw [hfil]; exact ht) with h | h
      · unfold updatedPnrRow
        rw [h]
      · unfold updatedPnrRow
        rw [h]
        dsimp only
        split <;> rfl

/-- C5 witness: the concrete update appends its fee row and preserves the
original row, as the theorem states. -/
theorem C5_fee_row_append_witness :
    (0 < c5form.dateChangeFees ∨ 0 < c5form.extraFare) ∧
    (∃ batch fee,
      handleUpdateTicket (fun _ => none) "11/20/2025" [c5ticket] "PNR1" c5form =
        some (batch, [fee]) ∧
      fee.issued_date = "11/20/2025" ∧ fee.booking_reference = "PNR1" ∧
      fee.base_fare = 0 ∧ fee.net_amount = 0 ∧ fee.commission = 0 ∧
      fee.extra_fare = c5form.extraFare ∧ fee.date_change = c5form.dateChangeFees ∧
      fee.paid = c5form.paid ∧
      batch.length = ([c5ticket].filter (·.booking_reference == "PNR1")).length ∧
      (∀ t ∈ [c5ticket].filter (·.booking_reference == "PNR1"), ∃ u ∈ batch,
        u.rowIndex = t.rowIndex ∧ u.paid = t.paid ∧ u.payment_method = t.payment_method ∧
        u.paid_date = t.paid_date ∧ u.net_amount = t.net_amount ∧
        u.base_fare = t.base_fare ∧ u.commission = t.commission)) := by
  refine ⟨by decide, ?_⟩
  exact C5_fee_row_append (fun _ => none) "11/20/2025" [c5ticket] "PNR1" c5form
    (by decide) (by decide) (by decide) (by decide) (by decide)

theorem digitChar_isDigit (k : Nat) : isDigitChar (digitChar k) = true := by
  unfold digitChar
  split <;> decide

theorem digitVal_digitChar (k : Nat) (h : k < 10) : digitVal (digitChar k) = k := by
  interval_cases k <;> decide

theorem natDigitsRev_digits (n : Nat) : ∀ c ∈ natDigitsRev n, isDigitChar c = true := by
  induction n using natDigitsRev.induct with
  | case1 => intro c hc; simp [natDigitsRev] at hc
  | case2 n ih =>
    intro c hc
    rw [natDigitsRev] at hc
    rcases List.mem_cons.mp hc with rfl | hmem
    · exact digitChar_isDigit _
    · exact ih c hmem

theorem digitsVal_append (xs : List Char) (c : Char) :
    digitsVal (xs ++ [c]) = 10 * digitsVal xs + digitVal c := by
  simp [digitsVal, List.foldl_append]

theorem digitsVal_natDigitsRev (n : Nat) : digitsVal ((natDigitsRev n).reverse) = n := by
  induction n using natDigitsRev.induct with
  | case1 => rw [natDigitsRev]; rfl
  | case2 n ih =>
    rw [natDigitsRev, List.reverse_cons, digitsVal_append, ih,
      digitVal_digitChar _ (Nat.mod_lt _ (by omega))]
    omega

theorem renderNat_digits (n : Nat) : ∀ c ∈ renderNat n, isDigitChar c = true := by
  unfold renderNat
  split
  · intro c hc
    rcases List.mem_singleton.mp hc with rfl
    decide
  · intro c hc
    exact natDigitsRev_digits n c (List.mem_reverse.mp hc)

theorem renderNat_ne_nil (n : Nat) : renderNat n ≠ [] := by
  unfold renderNat
  split
  · simp
  · rename_i h
    cases hn : n with
    | zero => exact absurd hn h
    | succ k =>
      rw [natDigitsRev]
      simp

theorem digitsVal_renderNat (n : Nat) : digitsVal (renderNat n) = n := by
  unfold renderNat
  split
  · rename_i h
    rw [h]
    decide
  · exact digitsVal_natDigitsRev n

theorem digit_not_ws {c : Char} (h : isDigitChar c = true) : jsWhitespace c = false := by
  refine decide_eq_false ?_
  rintro (rfl | rfl | rfl | rfl | rfl | rfl) <;> exact absurd h (by decide)

theorem digit_not_sep {c : Char} (h : isDigitChar c = true) : isSepChar c = false := by
  refine decide_eq_false ?_
  rintro (rfl | rfl) <;> exact absurd h (by decide)

theorem takeWhile_all {p : Char → Bool} {l : List Char} (h : ∀ c ∈ l, p c = true) :
    l.takeWhile p = l := by
  induction l with
  | nil => rfl
  | cons c t ih =>
    rw [List.takeWhile_cons, if_pos (h c (List.mem_cons_self c t))]
    rw [ih (fun x hx => h x (List.mem_cons_of_mem c hx))]

theorem dropWhile_all_false {p : Char → Bool} {l : List Char} (h : ∀ c ∈ l, p c = false) :
    l.dropWhile p = l := by
  cases l with
  | nil => rfl
  | cons c t =>
    rw [List.dropWhile_cons, if_neg (by rw [h c (List.mem_cons_self c t)]; simp)]

theorem jsTrim_all {cs : List Char} (h : ∀ c ∈ cs, jsWhitespace c = false) : jsTrim cs = cs := by
  unfold jsTrim
  rw [dropWhile_all_false h]
  rw [dropWhile_all_false (fun c hc => h c (List.mem_reverse.mp hc))]
  exact List.reverse_reverse cs

theorem jsParseInt_digits (ds : List Char) (hne : ds ≠ [])
    (hall : ∀ c ∈ ds, isDigitChar c = true) :
    jsParseInt ds = some ((digitsVal ds : Int)) := by
  rcases ds with _ | ⟨c, t⟩
  · exact absurd rfl hne
  · have hc : isDigitChar c = true := hall c (List.mem_cons_self c t)
    have hm : (match c :: t with
        | '-' :: t => (true, t)
        | '+' :: t => (false, t)
        | t => (false, t)) = ((false, c :: t) : Bool × List Char) := by
      split
      · rename_i heq
        injection heq with h1 h2
        exact absurd h1 (by rintro rfl; exact absurd hc (by decide))
      · rename_i heq
        injection heq with h1 h2
        exact absurd h1 (by rintro rfl; exact absurd hc (by decide))
      · rfl
    unfold jsParseInt
    rw [List.dropWhile_cons, if_neg (by rw [digit_not_ws hc]; simp)]
    dsimp only
    rw [hm]
    dsimp only
    rw [takeWhile_all hall]
    rw [if_neg (by simp)]
    rfl

theorem digitsVal_cons_zero (xs : List Char) : digitsVal ('0' :: xs) = digitsVal xs := by
  unfold digitsVal
  have h0 : (10 * 0 + digitVal '0') = 0 := by decide
  rw [List.foldl_cons, h0]

theorem pad2_digits (n : Nat) : ∀ c ∈ pad2 n, isDigitChar c = true := by
  unfold pad2
  split
  · intro c hc
    rcases List.mem_cons.mp hc with rfl | hmem
    · decide
    · exact renderNat_digits n c hmem
  · exact renderNat_digits n

theorem pad2_ne_nil (n : Nat) : pad2 n ≠ [] := by
  unfold pad2
  split
  · simp
  · exact renderNat_ne_nil n

theorem digitsVal_pad2 (n : Nat) : digitsVal (pad2 n) = n := by
  unfold pad2
  split
  · rw [digitsVal_cons_zero, digitsVal_renderNat]
  · exact digitsVal_renderNat n

theorem jsParseInt_pad2 (n : Nat) : jsParseInt (pad2 n) = some ((n : Int)) := by
  rw [jsParseInt_digits (pad2 n) (pad2_ne_nil n) (pad2_digits n), digitsVal_pad2]

theorem jsParseInt_renderNat (n : Nat) : jsParseInt (renderNat n) = some ((n : Int)) := by
  rw [jsParseInt_digits (renderNat n) (renderNat_ne_nil n) (renderNat_digits n),
    digitsVal_renderNat]

theorem splitSep_sepfree {xs : List Char} (h : ∀ c ∈ xs, isSepChar c = false) :
    splitSep xs = [xs] := by
  induction xs with
  | nil => rfl
  | cons c t ih =>
    unfold splitSep
    rw [ih (fun x hx => h x (List.mem_cons_of_mem c hx))]
    dsimp only
    rw [if_neg (by rw [h c (List.mem_cons_self c t)]; simp)]

theorem splitSep_prepend {xs z : List Char} {cur : List Char} {rest : List (List Char)}
    (h : ∀ c ∈ xs, isSepChar c = false) (hz : splitSep z = cur :: rest) :
    splitSep (xs ++ z) = (xs ++ cur) :: rest := by
  induction xs with
  | nil => simpa using hz
  | cons c t ih =>
    rw [List.cons_append]
    unfold splitSep
    rw [ih (fun x hx => h x (List.mem_cons_of_mem c hx))]
    dsimp only
    rw [if_neg (by rw [h c (List.mem_cons_self c t)]; simp)]
    rfl

theorem splitSep_sep_cons {s : Char} (ys : List Char) (hs : isSepChar s = true) :
    splitSep (s :: ys) = [] :: splitSep ys := by
  rcases hy : splitSep ys with _ | ⟨c, r⟩
  · exact absurd hy (splitSep_ne_nil ys)
  · unfold splitSep
    rw [hy]
    dsimp only
    rw [if_pos hs]

theorem splitSep_mmdd (y m d : Nat) :
    splitSep (mmddChars y m d) = [pad2 (m + 1), pad2 d, renderNat y] := by
  have h3 : splitSep (renderNat y) = [renderNat y] :=
    splitSep_sepfree (fun c hc => digit_not_sep (renderNat_digits y c hc))
  have h2 : splitSep ('/' :: renderNat y) = [] :: [renderNat y] :=
    h3 ▸ splitSep_sep_cons (renderNat y) (by decide)
  have h1 : splitSep (pad2 d ++ '/' :: renderNat y) = [pad2 d, renderNat y] := by
    have := splitSep_prepend (fun c hc => digit_not_sep (pad2_digits d c hc)) h2
    simpa using this
  have h0 : splitSep ('/' :: (pad2 d ++ '/' :: renderNat y)) = [] :: [pad2 d, renderNat y] :=
    h1 ▸ splitSep_sep_cons _ (by decide)
  have hfin := splitSep_prepend (fun c hc => digit_not_sep (pad2_digits (m + 1) c hc)) h0
  simpa [mmddChars] using hfin

theorem daysInMonth_le_31 (y : Int) (m : Nat) : daysInMonth y m ≤ 31 := by
  unfold daysInMonth
  split <;> first | decide | (split <;> decide)

theorem structParse_mmdd (y m d : Nat) (hy : 1900 < y) (hm : m < 12) (hd1 : 1 ≤ d)
    (hd : d ≤ daysInMonth (y : Int) m) :
    structParse (mmddChars y m d) = some ⟨(y : Int), m, d, 0⟩ := by
  unfold structParse
  rw [splitSep_mmdd]
  dsimp only
  rw [jsParseInt_pad2 d, jsParseInt_pad2 (m + 1), jsParseInt_renderNat y]
  dsimp only [Option.map]
  have hmcast : ((m + 1 : Nat) : Int) - 1 = (m : Int) := by push_cast; ring
  rw [hmcast]
  rw [if_pos ?side]
  case side =>
    refine ⟨by exact_mod_cast hy, by exact_mod_cast hd1, ?_, by positivity, by exact_mod_cast hm⟩
    have h31 : d ≤ 31 := le_trans hd (daysInMonth_le_31 (y : Int) m)
    exact_mod_cast h31
  rw [Int.toNat_natCast, Int.toNat_natCast]
  unfold mkDate
  rw [if_pos hd]
  rw [if_pos ⟨rfl, rfl, rfl⟩]

theorem monthName_not_sep (m : Nat) (hm : m < 12) : ∀ c ∈ monthName m, isSepChar c = false := by
  interval_cases m <;> decide

theorem monthName_not_ws (m : Nat) (hm : m < 12) : ∀ c ∈ monthName m, jsWhitespace c = false := by
  interval_cases m <;> decide

theorem jsParseInt_monthName (m : Nat) (hm : m < 12) : jsParseInt (monthName m) = none := by
  interval_cases m <;> decide

theorem monthMap_monthName (m : Nat) (hm : m < 12) :
    monthMap ((monthName m).map Char.toUpper) = some m := by
  interval_cases m <;> decide

theorem splitSep_dmon (y m d : Nat) (hm : m < 12) :
    splitSep (dmonChars y m d) = [pad2 d, monthName m, renderNat y] := by
  have h3 : splitSep (renderNat y) = [renderNat y] :=
    splitSep_sepfree (fun c hc => digit_not_sep (renderNat_digits y c hc))
  have h2 : splitSep ('-' :: renderNat y) = [] :: [renderNat y] :=
    h3 ▸ splitSep_sep_cons (renderNat y) (by decide)
  have h1 : splitSep (monthName m ++ '-' :: renderNat y) = [monthName m, renderNat y] := by
    have := splitSep_prepend (monthName_not_sep m hm) h2
    simpa using this
  have h0 : splitSep ('-' :: (monthName m ++ '-' :: renderNat y)) =
      [] :: [monthName m, renderNat y] := h1 ▸ splitSep_sep_cons _ (by decide)
  have hfin := splitSep_prepend (fun c hc => digit_not_sep (pad2_digits d c hc)) h0
  simpa [dmonChars] using hfin

theorem structParse_dmon (y m d : Nat) (hy : 1900 < y) (hm : m < 12) (hd1 : 1 ≤ d)
    (hd : d ≤ daysInMonth (y : Int) m) :
    structParse (dmonChars y m d) = some ⟨(y : Int), m, d, 0⟩ := by
  unfold structParse
  rw [splitSep_dmon y m d hm]
  dsimp only
  rw [jsParseInt_monthName m hm]
  dsimp only
  rw [jsParseInt_pad2 d, jsParseInt_renderNat y, monthMap_monthName m hm]
  dsimp only [Option.map]
  rw [show (Int.ofNat m) = (m : Int) from rfl]
  rw [if_pos ?side]
  case side =>
    refine ⟨by omega, by omega, ?_, by omega, by omega⟩
    have h31 : d ≤ 31 := le_trans hd (daysInMonth_le_31 (y : Int) m)
    omega
  rw [Int.toNat_natCast, Int.toNat_natCast]
  unfold mkDate
  rw [if_pos hd]
  rw [if_pos ⟨rfl, rfl, rfl⟩]

theorem mmddChars_not_ws (y m d : Nat) : ∀ c ∈ mmddChars y m d, jsWhitespace c = false := by
  intro c hc
  simp only [mmddChars, List.mem_append, List.mem_cons] at hc
  rcases hc with h | rfl | h | rfl | h
  · exact digit_not_ws (pad2_digits (m + 1) c h)
  · decide
  · exact digit_not_ws (pad2_digits d c h)
  · decide
  · exact digit_not_ws (renderNat_digits y c h)

theorem dmonChars_not_ws (y m d : Nat) (hm : m < 12) :
    ∀ c ∈ dmonChars y m d, jsWhitespace c = false := by
  intro c hc
  simp only [dmonChars, List.mem_append, List.mem_cons] at hc
  rcases hc with h | rfl | h | rfl | h
  · exact digit_not_ws (pad2_digits d c h)
  · decide
  · exact monthName_not_ws m hm c h
  · decide
  · exact digit_not_ws (renderNat_digits y c h)

theorem mmddChars_ne_nil (y m d : Nat) : mmddChars y m d ≠ [] := by
  intro h
  exact pad2_ne_nil (m + 1) (List.append_eq_nil.mp h).1

theorem dmonChars_ne_nil (y m d : Nat) : dmonChars y m d ≠ [] := by
  intro h
  exact pad2_ne_nil d (List.append_eq_nil.mp h).1

theorem parseSheetDate_mmdd (fb : String → Option JSDate) (y m d : Nat) (hy : 1900 < y)
    (hm : m < 12) (hd1 : 1 ≤ d) (hd : d ≤ daysInMonth (y : Int) m) :
    parseSheetDate fb (mmddStr y m d) = ⟨(y : Int), m, d, 0⟩ := by
  unfold parseSheetDate
  rw [show (mmddStr y m d).toList = mmddChars y m d from rfl]
  rw [if_neg (mmddChars_ne_nil y m d)]
  show (match structParse (jsTrim (mmddChars y m d)) with
    | some dd => dd
    | none => match fb (String.mk (jsTrim (mmddChars y m d))) with
      | some dd => dd
      | none => epochDate) = _
  rw [jsTrim_all (mmddChars_not_ws y m d), structParse_mmdd y m d hy hm hd1 hd]

theorem parseSheetDate_dmon (fb : String → Option JSDate) (y m d : Nat) (hy : 1900 < y)
    (hm : m < 12) (hd1 : 1 ≤ d) (hd : d ≤ daysInMonth (y : Int) m) :
    parseSheetDate fb (dmonStr y m d) = ⟨(y : Int), m, d, 0⟩ := by
  unfold parseSheetDate
  rw [show (dmonStr y m d).toList = dmonChars y m d from rfl]
  rw [if_neg (dmonChars_ne_nil y m d)]
  show (match structParse (jsTrim (dmonChars y m d)) with
    | some dd => dd
    | none => match fb (String.mk (jsTrim (dmonChars y m d))) with
      | some dd => dd
      | none => epochDate) = _
  rw [jsTrim_all (dmonChars_not_ws y m d hm), structParse_dmon y m d hy hm hd1 hd]

theorem parseSheetDate_fallback_none (fb : String → Option JSDate) (s : String)
    (hne : ¬(s.toList = []))
    (hsp : structParse (jsTrim s.toList) = none)
    (hfb : fb (String.mk (jsTrim s.toList)) = none) :
    parseSheetDate fb s = epochDate := by
  unfold parseSheetDate
  rw [if_neg hne]
  show (match structParse (jsTrim s.toList) with
    | some dd => dd
    | none => match fb (String.mk (jsTrim s.toList)) with
      | some dd => dd
      | none => epochDate) = _
  rw [hsp, hfb]

/-- C2: parseSheetDate sends the MM/DD/YYYY and the DD-Mon-YYYY spelling of
any valid calendar date (year above 1900) to the same date, and the invalid
inputs "", "garbage", "nonsense", "13/45/2025" and "02/30/2025" all yield
the epoch sentinel (the host's generic parser rejects the four non-empty
ones, which is the stated hypothesis on `fb`). -/
theorem C2_parseSheetDate (fb : String → Option JSDate)
    (hg : fb "garbage" = none) (hn : fb "nonsense" = none)
    (h13 : fb "13/45/2025" = none) (h02 : fb "02/30/2025" = none) :
    (∀ y m d : Nat, 1900 < y → m < 12 → 1 ≤ d → d ≤ daysInMonth (y : Int) m →
      parseSheetDate fb (mmddStr y m d) = ⟨(y : Int), m, d, 0⟩ ∧
      parseSheetDate fb (dmonStr y m d) = ⟨(y : Int), m, d, 0⟩) ∧
    parseSheetDate fb "" = epochDate ∧
    parseSheetDate fb "garbage" = epochDate ∧
    parseSheetDate fb "nonsense" = epochDate ∧
    parseSheetDate fb "13/45/2025" = epochDate ∧
    parseSheetDate fb "02/30/2025" = epochDate := by
  refine ⟨?_, ?_, ?_, ?_, ?_, ?_⟩
  · intro y m d hy hm hd1 hd
    exact ⟨parseSheetDate_mmdd fb y m d hy hm hd1 hd, parseSheetDate_dmon fb y m d hy hm hd1 hd⟩
  · rfl
  · refine parseSheetDate_fallback_none fb "garbage" (by decide) (by decide) ?_
    rw [show String.mk (jsTrim "garbage".toList) = "garbage" from by decide]
    exact hg
  · refine parseSheetDate_fallback_none fb "nonsense" (by decide) (by decide) ?_
    rw [show String.mk (jsTrim "nonsense".toList) = "nonsense" from by decide]
    exact hn
  · refine parseSheetDate_fallback_none fb "13/45/2025" (by decide) (by decide) ?_
    rw [show String.mk (jsTrim "13/45/2025".toList) = "13/45/2025" from by decide]
    exact h13
  · refine parseSheetDate_fallback_none fb "02/30/2025" (by decide) (by decide) ?_
    rw [show String.mk (jsTrim "02/30/2025".toList) = "02/30/2025" from by decide]
    exact h02

/-- C2 witness: the date Nov 12 2025 in both spellings, and one invalid
input, at the concrete fallback that rejects everything. -/
theorem C2_parseSheetDate_witness :
    ((fun (_ : String) => (none : Option JSDate)) "garbage" = none) ∧
    1900 < 2025 ∧ (10 : Nat) < 12 ∧ 1 ≤ 12 ∧ 12 ≤ daysInMonth (2025 : Int) 10 ∧
    (parseSheetDate (fun _ => none) (mmddStr 2025 10 12) = ⟨2025, 10, 12, 0⟩ ∧
     parseSheetDate (fun _ => none) (dmonStr 2025 10 12) = ⟨2025, 10, 12, 0⟩) ∧
    parseSheetDate (fun _ => none) "02/30/2025" = epochDate := by
  refine ⟨rfl, by decide, by decide, by decide, by decide, ?_, ?_⟩
  · exact (C2_parseSheetDate (fun _ => none) rfl rfl rfl rfl).1 2025 10 12
      (by decide) (by decide) (by decide) (by decide)
  · exact (C2_parseSheetDate (fun _ => none) rfl rfl rfl rfl).2.2.2.2.2

end Ocean
